import Mathlib

/-
Verification of `rinex_verification.py` against its specification.

The script is a batch pipeline: it reads a processed-RINEX CSV table and a
navigation (TRINAV or SPN) CSV table, derives an integer "seconds of day"
key on both, inner-joins them on that key, converts angular lat/lon
differences to metres with a WGS-84 based scale factor, summarises the
difference series with descriptive statistics, and renders plots and a PDF
report.

This file shallowly embeds the arithmetic and table transformations of the
script.  Python floats are idealised as rationals (exact arithmetic), with
Python rounding and truncation semantics made explicit:
  - `int(x)` truncates toward zero (`pyTrunc`);
  - `x % 1` on a float is the floor-based fractional part (`pyFrac`);
  - `round(x, 1)` rounds to the nearest multiple of 1/10, ties to even
    (`pyRound1`, built on the round-half-even integer rounding `rhe`);
  - `a % b` on integers with a positive modulus agrees with Lean's `Int.emod`.
Real-valued trigonometry (the degree-to-metre factors) is modelled over ℝ.
-/

namespace Rinex

/-! ## Python numeric primitives -/

/-- Python `int(x)` applied to a float: truncation toward zero. -/
def pyTrunc (q : ℚ) : ℤ := if q < 0 then ⌈q⌉ else ⌊q⌋

/-- Python `x % 1` on a float: the floor-based fractional part, in `[0, 1)`. -/
def pyFrac (q : ℚ) : ℚ := q - ⌊q⌋

/-- Round-half-even integer rounding (the tie-breaking rule of Python's
`round`): the nearest integer, with ties going to the even neighbour. -/
def rhe (q : ℚ) : ℤ :=
  if q - ⌊q⌋ < 1/2 then ⌊q⌋
  else if 1/2 < q - ⌊q⌋ then ⌊q⌋ + 1
  else if 2 ∣ ⌊q⌋ then ⌊q⌋ else ⌊q⌋ + 1

/-- Python `round(x, 1)`: round to the nearest multiple of `1/10`,
ties to even. -/
def pyRound1 (q : ℚ) : ℚ := (rhe (q * 10) : ℚ) / 10

theorem floor_eval {q : ℚ} {n : ℤ} (hle : (n : ℚ) ≤ q) (hlt : q < n + 1) :
    ⌊q⌋ = n :=
  Int.floor_eq_iff.mpr ⟨hle, hlt⟩

theorem pyTrunc_intCast (n : ℤ) : pyTrunc (n : ℚ) = n := by
  unfold pyTrunc
  split <;> simp

theorem pyFrac_intCast (n : ℤ) : pyFrac (n : ℚ) = 0 := by
  simp [pyFrac]

theorem pyTrunc_eq_floor_of_nonneg {q : ℚ} (h : 0 ≤ q) : pyTrunc q = ⌊q⌋ := by
  unfold pyTrunc
  rw [if_neg (not_lt.mpr h)]

theorem rhe_nonneg {q : ℚ} (h : 0 ≤ q) : 0 ≤ rhe q := by
  unfold rhe
  have hf : (0 : ℤ) ≤ ⌊q⌋ := by positivity
  split_ifs <;> omega

/-- If `q < B + 1/2` then the round-half-even value of `q` is at most `B`. -/
theorem rhe_le_of_lt {q : ℚ} {B : ℤ} (h : q < (B : ℚ) + 1/2) : rhe q ≤ B := by
  unfold rhe
  have hfr : (⌊q⌋ : ℚ) ≤ q := Int.floor_le q
  have hfloorB : ⌊q⌋ ≤ B := by
    by_contra hc
    push_neg at hc
    have : (B : ℚ) + 1 ≤ (⌊q⌋ : ℚ) := by exact_mod_cast hc
    linarith
  split_ifs with h1 h2 h3
  · exact hfloorB
  · -- fractional part above 1/2: q - ⌊q⌋ > 1/2 gives ⌊q⌋ < B
    have : (⌊q⌋ : ℚ) < (B : ℚ) := by linarith
    have : ⌊q⌋ < B := by exact_mod_cast this
    omega
  · exact hfloorB
  · -- exact tie: q = ⌊q⌋ + 1/2 < B + 1/2 gives ⌊q⌋ < B
    push_neg at h1 h2
    have hq : q - (⌊q⌋ : ℚ) = 1/2 := le_antisymm h2 h1
    have : (⌊q⌋ : ℚ) < (B : ℚ) := by linarith
    have hfB : ⌊q⌋ < B := by exact_mod_cast this
    omega

/-! ## GPS epoch time conversion (`gps2time`, `time2gps`)

Python `datetime` values are modelled as a day ordinal plus seconds of day;
`timedelta(seconds=s)` normalises to `(s // 86400, s % 86400)`.  For the
positive modulus 86400 Python's floor division and modulo coincide with
Lean's `Int` `/` and `%`. -/

/-- Python `datetime.timedelta`, normalised: `0 ≤ seconds < 86400`. -/
structure PyTimedelta where
  days : ℤ
  seconds : ℤ
deriving DecidableEq

/-- Python `datetime.timedelta(seconds=s)`. -/
def timedeltaOfSeconds (s : ℤ) : PyTimedelta :=
  ⟨s / 86400, s % 86400⟩

/-- Python `datetime.datetime`, as proleptic day ordinal plus seconds of day. -/
structure PyDatetime where
  days : ℤ
  sod : ℤ
deriving DecidableEq

/-- The day ordinal of `datetime.datetime(1980, 1, 6)`, the GPS epoch. -/
def GPS_EPOCH : PyDatetime := ⟨722644, 0⟩

/-- Python `datetime + timedelta` with normalisation of seconds of day. -/
def dtAdd (d : PyDatetime) (t : PyTimedelta) : PyDatetime :=
  ⟨d.days + t.days + (d.sod + t.seconds) / 86400, (d.sod + t.seconds) % 86400⟩

/-- Python `datetime - datetime`, producing a normalised timedelta. -/
def dtSub (a b : PyDatetime) : PyTimedelta :=
  timedeltaOfSeconds ((a.days - b.days) * 86400 + (a.sod - b.sod))

/-- Source `gps2time`: `GPS_EPOCH + timedelta(seconds=gpstime)`. -/
def gps2time (gpstime : ℤ) : PyDatetime :=
  dtAdd GPS_EPOCH (timedeltaOfSeconds gpstime)

/-- Source `time2gps`: `delta = dat - GPS_EPOCH;
(delta.days * 24 * 60 * 60) + delta.seconds`. -/
def time2gps (dat : PyDatetime) : ℤ :=
  (dtSub dat GPS_EPOCH).days * 24 * 60 * 60 + (dtSub dat GPS_EPOCH).seconds

/-! ## Table rows and the seconds-of-day join key -/

/-- A row of the processed-RINEX CSV table, restricted to the columns the
pipeline uses. -/
structure RinexRow where
  year : ℕ
  day_of_year : ℕ
  decimal_hour : ℚ
  latitude_decimal_degree : ℚ
  longitude_decimal_degree : ℚ
deriving DecidableEq

/-- A row of the navigation (TRINAV or SPN) table after the lat/lon columns
of the selected system have been converted to decimal degrees.  `time` is
the integer value of the `Time` (TRINAV) or `GPSTIME` (SPN) column. -/
structure NavRow where
  time : ℤ
  lat : ℚ
  lon : ℚ
deriving DecidableEq

/-- The `day_seconds` column added to the RINEX table:
`int(round(float(decimal_hour) * 3600, 1))`. -/
def day_seconds_r (r : RinexRow) : ℤ :=
  pyTrunc (pyRound1 (r.decimal_hour * 3600))

/-- The `day_seconds` column added to the navigation table:
`int(time) % 86400` (same expression for the TRINAV `Time` column and the
SPN `GPSTIME` column). -/
def day_seconds_n (n : NavRow) : ℤ :=
  n.time % 86400

/-- The `pd.merge(df_r, df_n, how=..inner.., on day_seconds)` step: each
RINEX row is paired with every navigation row carrying an equal
`day_seconds` key, in table order. -/
def rinexNavMerge (df_r : List RinexRow) (df_n : List NavRow) :
    List (RinexRow × NavRow) :=
  df_r.flatMap (fun r =>
    (df_n.filter (fun n => day_seconds_n n == day_seconds_r r)).map (fun n => (r, n)))

theorem day_seconds_r_nonneg {r : RinexRow} (h : 0 ≤ r.decimal_hour) :
    0 ≤ day_seconds_r r := by
  unfold day_seconds_r
  have hy : (0 : ℚ) ≤ r.decimal_hour * 3600 := by positivity
  have h10 : (0 : ℚ) ≤ r.decimal_hour * 3600 * 10 := by positivity
  have hr : (0 : ℤ) ≤ rhe (r.decimal_hour * 3600 * 10) := rhe_nonneg h10
  have hq : (0 : ℚ) ≤ pyRound1 (r.decimal_hour * 3600) := by
    unfold pyRound1
    positivity
  rw [pyTrunc_eq_floor_of_nonneg hq]
  exact Int.floor_nonneg.mpr hq

theorem day_seconds_r_lt {r : RinexRow} (h0 : 0 ≤ r.decimal_hour)
    (h : r.decimal_hour * 3600 < 86399.95) : day_seconds_r r < 86400 := by
  unfold day_seconds_r
  have h10 : r.decimal_hour * 3600 * 10 < (863999 : ℚ) + 1/2 := by
    rw [show ((86399.95 : ℚ)) = (863999 + 1/2) / 10 by norm_num] at h
    linarith
  have hub : rhe (r.decimal_hour * 3600 * 10) ≤ 863999 := rhe_le_of_lt h10
  have hq : (0 : ℚ) ≤ pyRound1 (r.decimal_hour * 3600) := by
    unfold pyRound1
    have : (0 : ℚ) ≤ r.decimal_hour * 3600 * 10 := by positivity
    have := rhe_nonneg this
    positivity
  rw [pyTrunc_eq_floor_of_nonneg hq]
  have : pyRound1 (r.decimal_hour * 3600) < (86400 : ℚ) := by
    unfold pyRound1
    have : ((rhe (r.decimal_hour * 3600 * 10) : ℚ)) ≤ (863999 : ℚ) := by
      exact_mod_cast hub
    linarith
  have := Int.floor_lt.mpr (by exact_mod_cast this :
    pyRound1 (r.decimal_hour * 3600) < ((86400 : ℤ) : ℚ))
  exact this

/-! ## Descriptive statistics (`stats`) and the PDF statistics table -/

/-- Minimum of a series (pandas `min`). -/
def seriesMin : List ℚ → ℚ
  | [] => 0
  | a :: t => t.foldl min a

/-- Maximum of a series (pandas `max`). -/
def seriesMax : List ℚ → ℚ
  | [] => 0
  | a :: t => t.foldl max a

/-- Mean of a series (pandas `mean`): sum divided by count. -/
def seriesMean (s : List ℚ) : ℚ := s.sum / (s.length : ℚ)

/-- Sample variance with one delta degree of freedom, the square of pandas
`std`. -/
def seriesVar (s : List ℚ) : ℚ :=
  (s.map (fun x => (x - seriesMean s) ^ 2)).sum / ((s.length : ℚ) - 1)

/-- Quantile with linear interpolation on the sorted series (the pandas
default). -/
def seriesQuantile (s : List ℚ) (q : ℚ) : ℚ :=
  let sorted := s.mergeSort (· ≤ ·)
  let pos := q * ((s.length : ℚ) - 1)
  let lo := (⌊pos⌋).toNat
  let frac := pos - (⌊pos⌋ : ℚ)
  sorted.getD lo 0 + frac * (sorted.getD (lo + 1) (sorted.getD lo 0) - sorted.getD lo 0)

/-- The fields of pandas `Series.describe()` on a numeric series. -/
structure Describe where
  count : ℕ
  mean : ℚ
  std : ℝ
  min : ℚ
  q25 : ℚ
  q50 : ℚ
  q75 : ℚ
  max : ℚ

/-- Pandas `Series.describe()`: count, mean, std, min, the three
quartiles and max. -/
noncomputable def describe (s : List ℚ) : Describe :=
  ⟨s.length, seriesMean s, Real.sqrt (seriesVar s), seriesMin s,
    seriesQuantile s (1/4), seriesQuantile s (1/2), seriesQuantile s (3/4),
    seriesMax s⟩

/-- Source `stats`: `df[system + '_' + type + '_diff'].describe()`, as a
function of that difference series. -/
noncomputable def stats (series : List ℚ) : Describe := describe series

/-- One row of the PDF statistics table: a label with a latitude and a
longitude value cell, or the spanning count row showing a single count. -/
inductive PdfRow where
  | duo : String → ℝ → ℝ → PdfRow
  | single : String → ℕ → PdfRow

/-- Source `pdf_collect` statistics loop: one row per `stat` in
`(max, min, mean, std, count)`, labelled through the `names` map, the
`count` row being a single spanning cell showing the latitude series
count. -/
noncomputable def pdf_stat_rows (dlat dlon : Describe) : List PdfRow :=
  [.duo "Max" (dlat.max : ℝ) (dlon.max : ℝ),
   .duo "Min" (dlat.min : ℝ) (dlon.min : ℝ),
   .duo "Mean" (dlat.mean : ℝ) (dlon.mean : ℝ),
   .duo "Std Dev" dlat.std dlon.std,
   .single "# of obs" dlat.count]

/-! ## File-system effects of one processing run -/

/-- Files written by `read_file_csv`: the testing CSV dump, written twice
(source lines 290 and 320). -/
def read_file_csv_writes : List String :=
  ["C:/tmp/combined_data.csv", "C:/tmp/combined_data.csv"]

/-- File written by `plot_diff` for a system (`plt.savefig`). -/
def plot_diff_writes (system : String) : List String := [system ++ ".png"]

/-- File written by `plot_gyros` (`plt.savefig`). -/
def plot_gyros_writes : List String := ["gyros.png"]

/-- File written by `pdf_collect`: the report, named with a time tag. -/
def pdf_collect_writes (tag : String) : List String :=
  ["RINEX_verification_report" ++ tag ++ ".pdf"]

/-- Files removed by `cleanup`: the gyro plot and one plot per system. -/
def cleanup_removes (systems : List String) : List String :=
  "gyros.png" :: systems.map (fun s => s ++ ".png")

/-- All files written during `Window.process` when every system processes
successfully: per system the `read_file_csv` dump and the two plots, then
the PDF report. -/
def process_writes (systems : List String) (tag : String) : List String :=
  systems.flatMap (fun s =>
    read_file_csv_writes ++ plot_diff_writes s ++ plot_gyros_writes) ++
  pdf_collect_writes tag

/-! ## The `Window.process` loop and its error handling -/

/-- Per-system loop of `Window.process`: a system whose `read_file_csv`
raises is skipped by the swallowed exception and `continue` (no plots, no
start/stop entry, no statistics entries); a successful system contributes
its two statistics keys, its two plot files and its start/stop key.
Returns (statistics keys, plot files, start/stop keys). -/
def processLoop :
    List (String × Option (List (RinexRow × NavRow))) →
      List String × List String × List String
  | [] => ([], [], [])
  | (_, none) :: rest => processLoop rest
  | (s, some _) :: rest =>
    ((s ++ "_lat") :: (s ++ "_lon") :: (processLoop rest).1,
     (s ++ ".png") :: "gyros.png" :: (processLoop rest).2.1,
     s :: (processLoop rest).2.2)

/-- Pages of `pdf_collect`: it loops over all systems and the per-system
page body starts with a `start_stop_times[system]` lookup, so a system
with no entry raises `KeyError` into the swallowing handler and gets no
page. -/
def pdf_pages (systems : List String) (sskeys : List String) : List String :=
  systems.filter (fun s => sskeys.contains s)

/-- Observable outcome of one `Window.process` run. -/
structure ProcessOut where
  statKeys : List String
  plotFiles : List String
  startStopKeys : List String
  pdfPages : List String
  pdfProduced : Bool

/-- Names of the systems whose `read_file_csv` call succeeded. -/
def succeeded (inputs : List (String × Option (List (RinexRow × NavRow)))) :
    List String :=
  (inputs.filter (fun p => p.2.isSome)).map (fun p => p.1)

/-- Model of `Window.process`: run the per-system loop, then `pdf_collect`
over the full systems list, producing the report. -/
def process (inputs : List (String × Option (List (RinexRow × NavRow)))) :
    ProcessOut :=
  ⟨(processLoop inputs).1, (processLoop inputs).2.1, (processLoop inputs).2.2,
    pdf_pages (inputs.map (fun p => p.1)) (processLoop inputs).2.2, true⟩

end Rinex

namespace Rinex

/-! ## DMS to decimal degrees (`dms_to_dec`)

Strings are modelled as lists of characters.  `str.replace` with a
single-character pattern, no-argument `str.split()` (split on whitespace
runs, dropping empty fields) and `float()` on a simple signed numeral are
modelled explicitly. -/

/-- Python `str.replace` with a single-character pattern: every occurrence
of `t` is replaced by the character list `r`. -/
def pyReplace (t : Char) (r : List Char) : List Char → List Char
  | [] => []
  | c :: cs => if c = t then r ++ pyReplace t r cs else c :: pyReplace t r cs

/-- The replacement cascade at the head of `dms_to_dec`: `:` becomes a
space, then a space is inserted before each of `E`, `N`, `W`, `S`, in the
source's order. -/
def dmsPre (l : List Char) : List Char :=
  pyReplace 'S' [' ', 'S'] (pyReplace 'W' [' ', 'W'] (pyReplace 'N' [' ', 'N']
    (pyReplace 'E' [' ', 'E'] (pyReplace ':' [' '] l))))

/-- Worker for `splitWs`; `acc` holds the current field reversed. -/
def splitWsGo : List Char → List Char → List (List Char)
  | [], acc => if acc = [] then [] else [acc.reverse]
  | c :: cs, acc =>
    if c.isWhitespace then
      if acc = [] then splitWsGo cs [] else acc.reverse :: splitWsGo cs []
    else splitWsGo cs (c :: acc)

/-- Python `str.split()` with no argument: split on runs of whitespace,
dropping empty fields. -/
def splitWs (l : List Char) : List (List Char) := splitWsGo l []

/-- Value of a digit string, most significant digit first. -/
def digitsVal (l : List Char) : ℕ :=
  l.foldl (fun n c => n * 10 + (c.toNat - 48)) 0

/-- Python `float()` on an unsigned numeral: digits with at most one
decimal point and at least one digit; anything else raises (`none`). -/
def parseUnsigned (l : List Char) : Option ℚ :=
  match l.dropWhile Char.isDigit with
  | [] => if l = [] then none else some (digitsVal l)
  | '.' :: fp =>
      if fp.all Char.isDigit ∧ (l.takeWhile Char.isDigit ≠ [] ∨ fp ≠ []) then
        some ((digitsVal (l.takeWhile Char.isDigit) : ℚ) +
          (digitsVal fp : ℚ) / 10 ^ fp.length)
      else none
  | _ => none

/-- Python `float()` on a possibly signed numeral. -/
def pyFloat? (l : List Char) : Option ℚ :=
  match l with
  | '-' :: rest => (parseUnsigned rest).map (fun q => -q)
  | '+' :: rest => parseUnsigned rest
  | _ => parseUnsigned l

/-- Result of `dms_to_dec`: the original value returned unchanged (fewer
than three fields), a converted decimal-degree value, or a raised
`ValueError` from `float()`. -/
inductive DmsOut where
  | orig : List Char → DmsOut
  | dec : ℚ → DmsOut
  | err : DmsOut
deriving DecidableEq

/-- Source `dms_to_dec`: insert spaces around separators and hemisphere
letters, split on whitespace; with fewer than three fields return the
input unchanged; otherwise parse degrees and minutes, parse seconds only
when there are exactly four fields (else 0), and negate when the processed
string contains `S` or `W`. -/
def dms_to_dec (dms0 : List Char) : DmsOut :=
  let dms := dmsPre dms0
  let fields := splitWs dms
  if fields.length < 3 then .orig dms0
  else
    match pyFloat? (fields.getD 0 []), pyFloat? (fields.getD 1 []),
      (if fields.length = 4 then pyFloat? (fields.getD 2 []) else some 0) with
    | some deg, some mn, some sec =>
      if dms.contains 'S' then .dec ((deg + mn / 60 + sec / 3600) * (-1))
      else if dms.contains 'W' then .dec ((deg + mn / 60 + sec / 3600) * (-1))
      else .dec (deg + mn / 60 + sec / 3600)
    | _, _, _ => .err

theorem mem_splitWsGo {c : Char} (hc : c.isWhitespace = false) :
    ∀ (l acc : List Char), (∃ f ∈ splitWsGo l acc, c ∈ f) ↔ c ∈ l ∨ c ∈ acc := by
  intro l
  induction l with
  | nil =>
    intro acc
    unfold splitWsGo
    split_ifs with h
    · subst h
      simp
    · simp
  | cons d cs ih =>
    intro acc
    unfold splitWsGo
    split_ifs with h1 h2
    · subst h2
      have hne : c ≠ d := by
        intro he
        rw [he, h1] at hc
        cases hc
      simp [ih, hne]
    · have hne : c ≠ d := by
        intro he
        rw [he, h1] at hc
        cases hc
      simp [ih, hne]
      tauto
    · rw [ih (d :: acc)]
      simp
      tauto

theorem mem_splitWs {c : Char} (hc : c.isWhitespace = false) (l : List Char) :
    (∃ f ∈ splitWs l, c ∈ f) ↔ c ∈ l := by
  have := mem_splitWsGo hc l []
  simpa [splitWs] using this

theorem parseUnsigned_chars {l : List Char} {v : ℚ}
    (h : parseUnsigned l = some v) {c : Char} (hm : c ∈ l) :
    c.isDigit = true ∨ c = '.' := by
  unfold parseUnsigned at h
  split at h
  · rename_i heq
    exact Or.inl (List.dropWhile_eq_nil_iff.mp heq c hm)
  · rename_i fp heq
    split_ifs at h with hcond
    have hall := List.all_eq_true.mp hcond.1
    rw [← List.takeWhile_append_dropWhile Char.isDigit l, heq] at hm
    rcases List.mem_append.mp hm with hm | hm
    · exact Or.inl (List.mem_takeWhile_imp hm)
    · rcases List.mem_cons.mp hm with hm | hm
      · exact Or.inr hm
      · exact Or.inl (hall c hm)
  · cases h

theorem pyFloat_chars {l : List Char} {v : ℚ}
    (h : pyFloat? l = some v) {c : Char} (hm : c ∈ l) :
    c.isDigit = true ∨ c = '.' ∨ c = '-' ∨ c = '+' := by
  unfold pyFloat? at h
  split at h
  · rename_i rest
    rcases List.mem_cons.mp hm with hm | hm
    · exact Or.inr (Or.inr (Or.inl hm))
    · rcases Option.map_eq_some'.mp h with ⟨w, hw, -⟩
      rcases parseUnsigned_chars hw hm with h1 | h1
      · exact Or.inl h1
      · exact Or.inr (Or.inl h1)
  · rename_i rest
    rcases List.mem_cons.mp hm with hm | hm
    · exact Or.inr (Or.inr (Or.inr hm))
    · rcases parseUnsigned_chars h hm with h1 | h1
      · exact Or.inl h1
      · exact Or.inr (Or.inl h1)
  · rcases parseUnsigned_chars h hm with h1 | h1
    · exact Or.inl h1
    · exact Or.inr (Or.inl h1)

theorem pyFloat_no_S {l : List Char} {v : ℚ} (h : pyFloat? l = some v) :
    'S' ∉ l := by
  intro hm
  rcases pyFloat_chars h hm with h1 | h1 | h1 | h1 <;> simp_all

theorem pyFloat_no_W {l : List Char} {v : ℚ} (h : pyFloat? l = some v) :
    'W' ∉ l := by
  intro hm
  rcases pyFloat_chars h hm with h1 | h1 | h1 | h1 <;> simp_all

/-! ## Decimal hour formatting and the logging period (`dec_hour_to_hms`,
`start_stop_df_m`) -/

/-- Python `str.zfill`: pad on the left with `0` up to the given width. -/
def zfill (width : ℕ) (s : String) : String :=
  if width ≤ s.length then s
  else String.mk (List.replicate (width - s.length) '0') ++ s

/-- Parse a nonempty all-digit string as a natural number. -/
def parseNat? (l : List Char) : Option ℕ :=
  if l ≠ [] ∧ l.all Char.isDigit then
    some (l.foldl (fun n c => n * 10 + (c.toNat - 48)) 0)
  else none

/-- Source `dec_hour_to_hms`: `hours = int(dec_hour)`,
`minutes = int(60 * (dec_hour % 1))`, `seconds = int(60 * (minutes % 1))`
(note that `minutes` is already an integer, so `minutes % 1 = 0`), each
rendered with `str(...).zfill(2)`. -/
def dec_hour_to_hms (dec_hour : ℚ) : String × String × String :=
  (zfill 2 (toString (pyTrunc dec_hour)),
   zfill 2 (toString (pyTrunc (60 * pyFrac dec_hour))),
   zfill 2 (toString (pyTrunc (60 * pyFrac ((pyTrunc (60 * pyFrac dec_hour) : ℤ) : ℚ)))))

/-- A parsed `datetime.strptime(..., ..%Y_%j_%H_%M_%S..)` result. -/
structure TSDateTime where
  year : ℕ
  doy : ℕ
  hour : ℕ
  minute : ℕ
  second : ℕ
deriving DecidableEq

/-- Model of `datetime.strptime` on the five underscore-joined components
produced by `start_stop_df_m`: each component must parse as a natural
number, otherwise the call raises (modelled as `none`). -/
def strptimeModel (ys ds hs ms ss : String) : Option TSDateTime :=
  (parseNat? ys.toList).bind fun y =>
  (parseNat? ds.toList).bind fun d =>
  (parseNat? hs.toList).bind fun h =>
  (parseNat? ms.toList).bind fun m =>
  (parseNat? ss.toList).map fun s => ⟨y, d, h, m, s⟩

/-- Source `start_stop_df_m` applied to the merged table: take year and day
of year from the first row, the decimal hours of the first and last rows,
format them with `dec_hour_to_hms` and parse back with `strptime`; swap
start and stop (setting `reverse = 1`) when the first time is later than
the last.  An empty frame raises (`df.year[0]`), modelled as `none`. -/
def start_stop_df_m :
    List (RinexRow × NavRow) → Option (Option TSDateTime × Option TSDateTime × ℕ)
  | [] => none
  | p0 :: tl =>
    let lastp := (p0 :: tl).getLast (List.cons_ne_nil p0 tl)
    let year := toString p0.1.year
    let day := zfill 3 (toString p0.1.day_of_year)
    let time_first := p0.1.decimal_hour
    let time_last := lastp.1.decimal_hour
    let f1 := dec_hour_to_hms time_first
    let first := strptimeModel year day f1.1 f1.2.1 f1.2.2
    let f2 := dec_hour_to_hms time_last
    let last := strptimeModel year day f2.1 f2.2.1 f2.2.2
    if time_last < time_first then some (last, first, 1)
    else some (first, last, 0)

/-! ## Degree-to-metre scale factors and the difference columns

Source lines 292–309.  The factors are computed from the mean of the merged
table's `latitude_decimal_degree` column (a RINEX column); the difference
columns are built in two steps, a column subtraction followed by a
column-wise multiplication by the factor. -/

/-- Mean of the merged table's `latitude_decimal_degree` column (pandas
`mean()`, i.e. sum divided by row count). -/
noncomputable def lat_mean (df_m : List (RinexRow × NavRow)) : ℝ :=
  (df_m.map (fun p => (p.1.latitude_decimal_degree : ℝ))).sum / df_m.length

/-- Source `f = 1 / 298.257223563`, the WGS-84 flattening. -/
noncomputable def wgs_f : ℝ := 1 / 298.257223563

/-- Source `sq_ex = f * (2 + f) / (1 - f) ** 2`. -/
noncomputable def sq_ex : ℝ := wgs_f * (2 + wgs_f) / (1 - wgs_f) ^ 2

/-- Source `v2 = 1 + ((sq_ex ** 2) * math.cos(lat_mean / 180 * math.pi))`,
as a function of the mean latitude. -/
noncomputable def v2 (lm : ℝ) : ℝ := 1 + sq_ex ^ 2 * Real.cos (lm / 180 * Real.pi)

/-- Source `c = 6378137 / (1 - f)`. -/
noncomputable def ellip_c : ℝ := 6378137 / (1 - wgs_f)

/-- Source `lat_factor = c * math.pi / (v2 ** 1.5) / 180`, computed from the
merged table. -/
noncomputable def lat_factor (df_m : List (RinexRow × NavRow)) : ℝ :=
  ellip_c * Real.pi / (v2 (lat_mean df_m) ^ (1.5 : ℝ)) / 180

/-- Source `lon_factor = lat_factor * math.cos(lat_mean * math.pi / 180)`. -/
noncomputable def lon_factor (df_m : List (RinexRow × NavRow)) : ℝ :=
  lat_factor df_m * Real.cos (lat_mean df_m * Real.pi / 180)

/-- The latitude factor as the specification words it: a function of the
WGS-84 flattening and a mean latitude alone, `c * pi / (v2 ^ 1.5) / 180`
with `c = 6378137 / (1 - f)` and `v2` derived from `f` and the mean
latitude. -/
noncomputable def spec_lat_factor (lm : ℝ) : ℝ :=
  ellip_c * Real.pi / (v2 lm ^ (1.5 : ℝ)) / 180

/-- Source lines 305 and 308: the per-row latitude difference column,
built as the column difference `latitude_decimal_degree - nav latitude`
followed by a column-wise multiplication by `lat_factor`. -/
noncomputable def lat_diff_col (df_m : List (RinexRow × NavRow)) : List ℝ :=
  (df_m.map (fun p => (p.1.latitude_decimal_degree : ℝ) - (p.2.lat : ℝ))).map
    (fun x => x * lat_factor df_m)

/-- Source lines 306 and 309: the per-row longitude difference column. -/
noncomputable def lon_diff_col (df_m : List (RinexRow × NavRow)) : List ℝ :=
  (df_m.map (fun p => (p.1.longitude_decimal_degree : ℝ) - (p.2.lon : ℝ))).map
    (fun x => x * lon_factor df_m)

/-- C9: converting a nonnegative integer number of GPS seconds to a
datetime with `gps2time` and back with `time2gps` is the identity. -/
theorem C9_gps_roundtrip (t : ℕ) : time2gps (gps2time (t : ℤ)) = t := by
  simp only [time2gps, gps2time, dtAdd, dtSub, timedeltaOfSeconds, GPS_EPOCH]
  omega

/-- C1: a pair appears in the merged table exactly when its RINEX row and
navigation row come from the respective input tables and carry equal
`day_seconds` keys; in particular a row whose key occurs in only one table
does not appear. -/
theorem C1_inner_join (df_r : List RinexRow) (df_n : List NavRow)
    (r : RinexRow) (n : NavRow) :
    (r, n) ∈ rinexNavMerge df_r df_n ↔
      r ∈ df_r ∧ n ∈ df_n ∧ day_seconds_r r = day_seconds_n n := by
  simp only [rinexNavMerge, List.mem_flatMap, List.mem_map, List.mem_filter,
    beq_iff_eq, Prod.mk.injEq]
  constructor
  · rintro ⟨r', hr', n', ⟨hn', hkey⟩, hrr, hnn⟩
    subst hrr
    subst hnn
    exact ⟨hr', hn', hkey.symm⟩
  · rintro ⟨hr, hn, hkey⟩
    exact ⟨r, hr, n, ⟨hn, hkey.symm⟩, rfl, rfl⟩

/-- C2 fails as stated: (a) a RINEX row with `decimal_hour = 24` gets the
key 86400, outside the claimed range `[0, 86400)`; (b) a RINEX row with
`decimal_hour = 503/18000` (so that `decimal_hour * 3600 = 100.6`) gets the
key 100, whereas multiplying by 3600 and rounding to an integer gives 101 —
the code truncates after rounding to one decimal place. -/
theorem C2_counterexample :
    day_seconds_r ⟨2023, 1, 24, 0, 0⟩ = 86400 ∧
    ¬ day_seconds_r ⟨2023, 1, 24, 0, 0⟩ < 86400 ∧
    day_seconds_r ⟨2023, 1, 503/18000, 0, 0⟩ = 100 ∧
    round ((503/18000 : ℚ) * 3600) = 101 := by
  have h1 : day_seconds_r ⟨2023, 1, 24, 0, 0⟩ = 86400 := by
    have e1 : (⌊((24 : ℚ) * 3600 * 10)⌋ : ℤ) = 864000 :=
      floor_eval (by norm_num) (by norm_num)
    have e2 : rhe ((24 : ℚ) * 3600 * 10) = 864000 := by
      unfold rhe
      rw [e1]
      norm_num
    show pyTrunc (pyRound1 ((24 : ℚ) * 3600)) = 86400
    unfold pyRound1 pyTrunc
    rw [e2]
    rw [if_neg (by norm_num)]
    exact floor_eval (by norm_num) (by norm_num)
  have h2 : day_seconds_r ⟨2023, 1, 503/18000, 0, 0⟩ = 100 := by
    have e1 : (⌊((503 : ℚ) / 18000 * 3600 * 10)⌋ : ℤ) = 1006 :=
      floor_eval (by norm_num) (by norm_num)
    have e2 : rhe ((503 : ℚ) / 18000 * 3600 * 10) = 1006 := by
      unfold rhe
      rw [e1]
      norm_num
    show pyTrunc (pyRound1 ((503 : ℚ) / 18000 * 3600)) = 100
    unfold pyRound1 pyTrunc
    rw [e2]
    rw [if_neg (by norm_num)]
    exact floor_eval (by norm_num) (by norm_num)
  refine ⟨h1, by omega, h2, ?_⟩
  rw [round_eq]
  exact floor_eval (by norm_num) (by norm_num)

/-- C2 amended: for TRINAV and SPN rows `day_seconds` is the integer time
value modulo 86400 and always lies in `[0, 86400)`; for RINEX rows
`day_seconds` is the decimal hour multiplied by 3600, rounded to one
decimal place (ties to even) and then truncated to an integer, and it lies
in `[0, 86400)` provided the decimal hour is nonnegative and
`decimal_hour * 3600 < 86399.95`. -/
theorem C2_amended :
    (∀ n : NavRow, day_seconds_n n = n.time % 86400 ∧
      0 ≤ day_seconds_n n ∧ day_seconds_n n < 86400) ∧
    (∀ r : RinexRow, 0 ≤ r.decimal_hour → r.decimal_hour * 3600 < 86399.95 →
      day_seconds_r r = pyTrunc (pyRound1 (r.decimal_hour * 3600)) ∧
      0 ≤ day_seconds_r r ∧ day_seconds_r r < 86400) := by
  constructor
  · intro n
    refine ⟨rfl, ?_, ?_⟩
    · exact Int.emod_nonneg _ (by norm_num)
    · exact Int.emod_lt_of_pos _ (by norm_num)
  · intro r h0 hlt
    exact ⟨rfl, day_seconds_r_nonneg h0, day_seconds_r_lt h0 hlt⟩

/-- C3: the degree-to-metre scale factors depend on the merged table only
through the mean of its RINEX latitude column, via the claimed formulas:
`lat_factor = c * pi / (v2 ^ 1.5) / 180` with `c = 6378137 / (1 - f)` and
`v2` a function of `f` and the mean latitude, and `lon_factor` is
`lat_factor` times the cosine of the mean latitude in radians. -/
theorem C3_scale_factors (df_m : List (RinexRow × NavRow)) :
    lat_factor df_m = spec_lat_factor (lat_mean df_m) ∧
    lon_factor df_m =
      lat_factor df_m * Real.cos (lat_mean df_m * Real.pi / 180) :=
  ⟨rfl, rfl⟩

/-- C4: for every row of the merged table, the reported latitude
difference is the signed degree difference (RINEX latitude minus the
selected system's navigation latitude) scaled by `lat_factor`, and
likewise for longitude with `lon_factor`. -/
theorem C4_row_diffs (df_m : List (RinexRow × NavRow)) (i : Fin df_m.length) :
    (lat_diff_col df_m).get ⟨i.val, by simp [lat_diff_col]⟩ =
      ((df_m.get i).1.latitude_decimal_degree - ((df_m.get i).2.lat : ℝ)) *
        lat_factor df_m ∧
    (lon_diff_col df_m).get ⟨i.val, by simp [lon_diff_col]⟩ =
      ((df_m.get i).1.longitude_decimal_degree - ((df_m.get i).2.lon : ℝ)) *
        lon_factor df_m := by
  constructor <;>
    simp [lat_diff_col, lon_diff_col, List.get_eq_getElem, List.getElem_map]

theorem pyFrac_zero : pyFrac (0 : ℚ) = 0 := by
  simp [pyFrac]

theorem pyTrunc_zero : pyTrunc (0 : ℚ) = 0 := by
  unfold pyTrunc
  norm_num

theorem hms_seconds (q : ℚ) : (dec_hour_to_hms q).2.2 = "00" := by
  unfold dec_hour_to_hms
  rw [pyFrac_intCast, mul_zero, pyTrunc_zero]
  show zfill 2 (toString (0 : ℤ)) = "00"
  decide

theorem hms_at_zero : dec_hour_to_hms 0 = ("00", "00", "00") := by
  unfold dec_hour_to_hms
  rw [pyFrac_zero, mul_zero, pyTrunc_zero, Int.cast_zero, pyFrac_zero, mul_zero,
    pyTrunc_zero]
  decide

theorem strptime_second {ys ds hs ms : String} {dt : TSDateTime}
    (h : strptimeModel ys ds hs ms "00" = some dt) : dt.second = 0 := by
  unfold strptimeModel at h
  simp only [Option.bind_eq_some, Option.map_eq_some'] at h
  obtain ⟨y, -, d, -, hh, -, m, -, s, hs0, hdt⟩ := h
  have : s = 0 := by
    have : parseNat? "00".toList = some 0 := by decide
    rw [this] at hs0
    exact (Option.some_inj.mp hs0).symm
  subst this
  subst hdt
  rfl

/-- C10: the seconds component produced by `dec_hour_to_hms` is always the
string `"00"`, and consequently the start-logging and stop-logging
timestamps derived by `start_stop_df_m` always carry a zero seconds
field. -/
theorem C10_zero_seconds :
    (∀ q : ℚ, (dec_hour_to_hms q).2.2 = "00") ∧
    (∀ (df : List (RinexRow × NavRow))
      (res : Option TSDateTime × Option TSDateTime × ℕ) (dt : TSDateTime),
      start_stop_df_m df = some res →
      res.1 = some dt ∨ res.2.1 = some dt → dt.second = 0) := by
  refine ⟨hms_seconds, ?_⟩
  intro df res dt hdf hmem
  match df with
  | [] => simp [start_stop_df_m] at hdf
  | p0 :: tl =>
    rw [start_stop_df_m] at hdf
    rw [hms_seconds, hms_seconds] at hdf
    split at hdf
    · have hres := (Option.some_inj.mp hdf).symm
      subst hres
      rcases hmem with hmem | hmem <;> exact strptime_second hmem
    · have hres := (Option.some_inj.mp hdf).symm
      subst hres
      rcases hmem with hmem | hmem <;> exact strptime_second hmem

/-- Witness instantiating `C10_zero_seconds` at the decimal hour `3/2` and
at a one-row merged table. -/
theorem C10_zero_seconds_witness :
    (dec_hour_to_hms (3/2 : ℚ)).2.2 = "00" ∧
    (⟨2023, 5, 0, 0, 0⟩ : TSDateTime).second = 0 := by
  refine ⟨C10_zero_seconds.1 (3/2), ?_⟩
  refine C10_zero_seconds.2 [(⟨2023, 5, 0, 0, 0⟩, ⟨0, 0, 0⟩)]
    (some ⟨2023, 5, 0, 0, 0⟩, some ⟨2023, 5, 0, 0, 0⟩, 0) ⟨2023, 5, 0, 0, 0⟩
    ?_ (Or.inl rfl)
  rw [start_stop_df_m]
  simp only [List.getLast_singleton, hms_at_zero]
  rw [if_neg (lt_irrefl (0 : ℚ))]
  decide

/-- C5: for a DMS string whose processed form splits into degrees, minutes,
an optional seconds field and a hemisphere letter, `dms_to_dec` returns the
decimal-degree value `deg + min/60 + sec/3600`, with `sec` taken as 0 when
no seconds field is present, negated exactly when the hemisphere letter is
`S` or `W` (equivalently, when the string contains `S` or `W`, the numeric
fields being unable to contain them). -/
theorem C5_dms_to_dec (s d m : List Char) (hchar : Char) (deg mn sec : ℚ)
    (hfs : splitWs (dmsPre s) = [d, m, [hchar]] ∧ sec = 0 ∨
      ∃ sf, splitWs (dmsPre s) = [d, m, sf, [hchar]] ∧ pyFloat? sf = some sec)
    (hd : pyFloat? d = some deg) (hm : pyFloat? m = some mn)
    (hh : hchar = 'N' ∨ hchar = 'S' ∨ hchar = 'E' ∨ hchar = 'W') :
    dms_to_dec s =
      .dec (if hchar = 'S' ∨ hchar = 'W' then (deg + mn / 60 + sec / 3600) * (-1)
        else deg + mn / 60 + sec / 3600) := by
  have hSw : ('S' : Char).isWhitespace = false := by decide
  have hWw : ('W' : Char).isWhitespace = false := by decide
  rcases hfs with ⟨hsp, hsec0⟩ | ⟨sf, hsp, hsec⟩
  · subst hsec0
    have hS : 'S' ∈ dmsPre s ↔ hchar = 'S' := by
      rw [← mem_splitWs hSw (dmsPre s), hsp]
      constructor
      · rintro ⟨f, hf, hcf⟩
        simp only [List.mem_cons, List.not_mem_nil, or_false] at hf
        rcases hf with rfl | rfl | rfl
        · exact absurd hcf (pyFloat_no_S hd)
        · exact absurd hcf (pyFloat_no_S hm)
        · simp only [List.mem_singleton] at hcf
          exact hcf.symm
      · rintro rfl
        exact ⟨['S'], by simp, by simp⟩
    have hW : 'W' ∈ dmsPre s ↔ hchar = 'W' := by
      rw [← mem_splitWs hWw (dmsPre s), hsp]
      constructor
      · rintro ⟨f, hf, hcf⟩
        simp only [List.mem_cons, List.not_mem_nil, or_false] at hf
        rcases hf with rfl | rfl | rfl
        · exact absurd hcf (pyFloat_no_W hd)
        · exact absurd hcf (pyFloat_no_W hm)
        · simp only [List.mem_singleton] at hcf
          exact hcf.symm
      · rintro rfl
        exact ⟨['W'], by simp, by simp⟩
    simp only [dms_to_dec, hsp]
    rw [if_neg (by norm_num)]
    rw [show ([d, m, [hchar]] : List (List Char)).getD 0 [] = d from rfl,
      show ([d, m, [hchar]] : List (List Char)).getD 1 [] = m from rfl]
    rw [if_neg (by norm_num : ¬ ([d, m, [hchar]] : List (List Char)).length = 4)]
    rw [hd, hm]
    show (if (dmsPre s).contains 'S' = true then
        DmsOut.dec ((deg + mn / 60 + 0 / 3600) * (-1))
      else if (dmsPre s).contains 'W' = true then
        DmsOut.dec ((deg + mn / 60 + 0 / 3600) * (-1))
      else DmsOut.dec (deg + mn / 60 + 0 / 3600)) =
      DmsOut.dec (if hchar = 'S' ∨ hchar = 'W' then
        (deg + mn / 60 + 0 / 3600) * (-1) else deg + mn / 60 + 0 / 3600)
    rcases hh with rfl | rfl | rfl | rfl
    · have h1 : ¬ ((dmsPre s).contains 'S' = true) := by
        simp only [List.elem_iff]
        rw [hS]
        decide
      have h2 : ¬ ((dmsPre s).contains 'W' = true) := by
        simp only [List.elem_iff]
        rw [hW]
        decide
      rw [if_neg h1, if_neg h2,
        if_neg (by decide : ¬ (('N' : Char) = 'S' ∨ ('N' : Char) = 'W'))]
    · have h1 : (dmsPre s).contains 'S' = true := by
        simp only [List.elem_iff]
        exact hS.mpr rfl
      rw [if_pos h1, if_pos (by decide : (('S' : Char) = 'S' ∨ ('S' : Char) = 'W'))]
    · have h1 : ¬ ((dmsPre s).contains 'S' = true) := by
        simp only [List.elem_iff]
        rw [hS]
        decide
      have h2 : ¬ ((dmsPre s).contains 'W' = true) := by
        simp only [List.elem_iff]
        rw [hW]
        decide
      rw [if_neg h1, if_neg h2,
        if_neg (by decide : ¬ (('E' : Char) = 'S' ∨ ('E' : Char) = 'W'))]
    · have h1 : ¬ ((dmsPre s).contains 'S' = true) := by
        simp only [List.elem_iff]
        rw [hS]
        decide
      have h2 : (dmsPre s).contains 'W' = true := by
        simp only [List.elem_iff]
        exact hW.mpr rfl
      rw [if_neg h1, if_pos h2,
        if_pos (by decide : (('W' : Char) = 'S' ∨ ('W' : Char) = 'W'))]
  · have hS : 'S' ∈ dmsPre s ↔ hchar = 'S' := by
      rw [← mem_splitWs hSw (dmsPre s), hsp]
      constructor
      · rintro ⟨f, hf, hcf⟩
        simp only [List.mem_cons, List.not_mem_nil, or_false] at hf
        rcases hf with rfl | rfl | rfl | rfl
        · exact absurd hcf (pyFloat_no_S hd)
        · exact absurd hcf (pyFloat_no_S hm)
        · exact absurd hcf (pyFloat_no_S hsec)
        · simp only [List.mem_singleton] at hcf
          exact hcf.symm
      · rintro rfl
        exact ⟨['S'], by simp, by simp⟩
    have hW : 'W' ∈ dmsPre s ↔ hchar = 'W' := by
      rw [← mem_splitWs hWw (dmsPre s), hsp]
      constructor
      · rintro ⟨f, hf, hcf⟩
        simp only [List.mem_cons, List.not_mem_nil, or_false] at hf
        rcases hf with rfl | rfl | rfl | rfl
        · exact absurd hcf (pyFloat_no_W hd)
        · exact absurd hcf (pyFloat_no_W hm)
        · exact absurd hcf (pyFloat_no_W hsec)
        · simp only [List.mem_singleton] at hcf
          exact hcf.symm
      · rintro rfl
        exact ⟨['W'], by simp, by simp⟩
    simp only [dms_to_dec, hsp]
    rw [if_neg (by norm_num)]
    rw [show ([d, m, sf, [hchar]] : List (List Char)).getD 0 [] = d from rfl,
      show ([d, m, sf, [hchar]] : List (List Char)).getD 1 [] = m from rfl,
      show ([d, m, sf, [hchar]] : List (List Char)).getD 2 [] = sf from rfl]
    rw [if_pos (by norm_num : ([d, m, sf, [hchar]] : List (List Char)).length = 4)]
    rw [hd, hm, hsec]
    show (if (dmsPre s).contains 'S' = true then
        DmsOut.dec ((deg + mn / 60 + sec / 3600) * (-1))
      else if (dmsPre s).contains 'W' = true then
        DmsOut.dec ((deg + mn / 60 + sec / 3600) * (-1))
      else DmsOut.dec (deg + mn / 60 + sec / 3600)) =
      DmsOut.dec (if hchar = 'S' ∨ hchar = 'W' then
        (deg + mn / 60 + sec / 3600) * (-1) else deg + mn / 60 + sec / 3600)
    rcases hh with rfl | rfl | rfl | rfl
    · have h1 : ¬ ((dmsPre s).contains 'S' = true) := by
        simp only [List.elem_iff]
        rw [hS]
        decide
      have h2 : ¬ ((dmsPre s).contains 'W' = true) := by
        simp only [List.elem_iff]
        rw [hW]
        decide
      rw [if_neg h1, if_neg h2,
        if_neg (by decide : ¬ (('N' : Char) = 'S' ∨ ('N' : Char) = 'W'))]
    · have h1 : (dmsPre s).contains 'S' = true := by
        simp only [List.elem_iff]
        exact hS.mpr rfl
      rw [if_pos h1, if_pos (by decide : (('S' : Char) = 'S' ∨ ('S' : Char) = 'W'))]
    · have h1 : ¬ ((dmsPre s).contains 'S' = true) := by
        simp only [List.elem_iff]
        rw [hS]
        decide
      have h2 : ¬ ((dmsPre s).contains 'W' = true) := by
        simp only [List.elem_iff]
        rw [hW]
        decide
      rw [if_neg h1, if_neg h2,
        if_neg (by decide : ¬ (('E' : Char) = 'S' ∨ ('E' : Char) = 'W'))]
    · have h1 : ¬ ((dmsPre s).contains 'S' = true) := by
        simp only [List.elem_iff]
        rw [hS]
        decide
      have h2 : (dmsPre s).contains 'W' = true := by
        simp only [List.elem_iff]
        exact hW.mpr rfl
      rw [if_neg h1, if_pos h2,
        if_pos (by decide : (('W' : Char) = 'S' ∨ ('W' : Char) = 'W'))]

theorem string_append_inj {a b t u : String} (h : a ++ t = b ++ u)
    (hlen : t.data.length = u.data.length) : a = b ∧ t = u := by
  have hd : a.data ++ t.data = b.data ++ u.data := congrArg String.data h
  rcases List.append_inj' hd hlen with ⟨h1, h2⟩
  exact ⟨String.ext h1, String.ext h2⟩

theorem succeeded_subset
    {inputs : List (String × Option (List (RinexRow × NavRow)))} {x : String}
    (h : x ∈ succeeded inputs) : x ∈ inputs.map (fun p => p.1) := by
  simp only [succeeded, List.mem_map, List.mem_filter] at h
  rcases h with ⟨p, ⟨hp, -⟩, rfl⟩
  exact List.mem_map_of_mem _ hp

theorem succeeded_cons_none (s : String)
    (rest : List (String × Option (List (RinexRow × NavRow)))) :
    succeeded ((s, none) :: rest) = succeeded rest := by
  simp [succeeded]

theorem succeeded_cons_some (s : String) (t : List (RinexRow × NavRow))
    (rest : List (String × Option (List (RinexRow × NavRow)))) :
    succeeded ((s, some t) :: rest) = s :: succeeded rest := by
  simp [succeeded]

theorem processLoop_sskeys
    (inputs : List (String × Option (List (RinexRow × NavRow)))) :
    (processLoop inputs).2.2 = succeeded inputs := by
  induction inputs with
  | nil => rfl
  | cons p rest ih =>
    rcases p with ⟨s, _ | t⟩
    · rw [succeeded_cons_none]
      simpa [processLoop] using ih
    · rw [succeeded_cons_some]
      simpa [processLoop] using ih

theorem processLoop_statKeys
    (inputs : List (String × Option (List (RinexRow × NavRow)))) :
    (processLoop inputs).1 =
      (succeeded inputs).flatMap (fun s => [s ++ "_lat", s ++ "_lon"]) := by
  induction inputs with
  | nil => rfl
  | cons p rest ih =>
    rcases p with ⟨s, _ | t⟩
    · rw [succeeded_cons_none]
      simpa [processLoop] using ih
    · rw [succeeded_cons_some]
      simpa [processLoop] using ih

theorem processLoop_plots
    (inputs : List (String × Option (List (RinexRow × NavRow)))) :
    (processLoop inputs).2.1 =
      (succeeded inputs).flatMap (fun s => [s ++ ".png", "gyros.png"]) := by
  induction inputs with
  | nil => rfl
  | cons p rest ih =>
    rcases p with ⟨s, _ | t⟩
    · rw [succeeded_cons_none]
      simpa [processLoop] using ih
    · rw [succeeded_cons_some]
      simpa [processLoop] using ih

theorem pdf_pages_succeeded
    (inputs : List (String × Option (List (RinexRow × NavRow))))
    (hnd : (inputs.map (fun p => p.1)).Nodup) :
    pdf_pages (inputs.map (fun p => p.1)) (succeeded inputs) =
      succeeded inputs := by
  revert hnd
  induction inputs with
  | nil =>
    intro hnd
    rfl
  | cons p rest ih =>
    intro hnd
    rcases p with ⟨s, res⟩
    simp only [List.map_cons] at hnd
    rcases List.nodup_cons.mp hnd with ⟨hs, hnd2⟩
    rcases res with _ | t
    · rw [succeeded_cons_none]
      have hnot : s ∉ succeeded rest := fun hmem => hs (succeeded_subset hmem)
      show pdf_pages (s :: rest.map (fun p => p.1)) (succeeded rest) =
        succeeded rest
      unfold pdf_pages
      rw [List.filter_cons, if_neg (by simp only [List.elem_iff]; simpa using hnot)]
      have := ih hnd2
      unfold pdf_pages at this
      exact this
    · rw [succeeded_cons_some]
      show pdf_pages (s :: rest.map (fun p => p.1)) (s :: succeeded rest) =
        s :: succeeded rest
      unfold pdf_pages
      rw [List.filter_cons, if_pos (by simp [List.elem_iff])]
      have hcongr : ∀ x ∈ rest.map (fun p => p.1),
          ((s :: succeeded rest).contains x) = ((succeeded rest).contains x) := by
        intro x hx
        have hxs : x ≠ s := fun he => hs (he ▸ hx)
        simp [List.elem_iff, List.mem_cons, hxs]
      rw [List.filter_congr hcongr]
      have := ih hnd2
      unfold pdf_pages at this
      rw [this]

/-- Witness instantiating `C5_dms_to_dec` on the SPN-style string
`12:30:36S` (four fields after preprocessing, southern hemisphere). -/
theorem C5_dms_to_dec_witness :
    dms_to_dec "12:30:36S".toList =
      .dec (if ('S' : Char) = 'S' ∨ ('S' : Char) = 'W' then
        ((12 : ℚ) + 30 / 60 + 36 / 3600) * (-1)
      else (12 : ℚ) + 30 / 60 + 36 / 3600) :=
  C5_dms_to_dec "12:30:36S".toList ['1', '2'] ['3', '0'] 'S' 12 30 36
    (Or.inr ⟨['3', '6'], by decide, by decide⟩) (by decide) (by decide)
    (Or.inr (Or.inl rfl))

/-- C6 fails as stated: processing a system also writes the testing dump
`C:/tmp/combined_data.csv`, which is neither the PDF report nor one of the
plot images removed by `cleanup`. -/
theorem C6_counterexample :
    "C:/tmp/combined_data.csv" ∈ process_writes ["FU1G4_XX"] "tag" ∧
    "C:/tmp/combined_data.csv" ∉
      pdf_collect_writes "tag" ++ cleanup_removes ["FU1G4_XX"] := by
  decide

/-- C6 amended: apart from the final PDF report, the per-system plot
images removed by `cleanup`, and the combined-data CSV dump written to
`C:/tmp` for testing, processing writes no other files. -/
theorem C6_amended (systems : List String) (tag : String) (p : String)
    (hp : p ∈ process_writes systems tag) :
    p = "C:/tmp/combined_data.csv" ∨ p ∈ pdf_collect_writes tag ∨
      p ∈ cleanup_removes systems := by
  simp only [process_writes, read_file_csv_writes, plot_diff_writes,
    plot_gyros_writes, List.mem_append, List.mem_flatMap, List.mem_cons,
    List.not_mem_nil, or_false] at hp
  simp only [cleanup_removes, List.mem_cons, List.mem_map]
  rcases hp with ⟨s, hs, h⟩ | h
  · rcases h with ((h | h) | h) | h
    · exact Or.inl h
    · exact Or.inl h
    · exact Or.inr (Or.inr (Or.inr ⟨s, hs, h.symm⟩))
    · exact Or.inr (Or.inr (Or.inl h))
  · exact Or.inr (Or.inl h)

/-- Witness instantiating `C6_amended` at the gyro plot file. -/
theorem C6_amended_witness :
    ("gyros.png" : String) = "C:/tmp/combined_data.csv" ∨
    "gyros.png" ∈ pdf_collect_writes "t" ∨
    "gyros.png" ∈ cleanup_removes ["A"] :=
  C6_amended ["A"] "t" "gyros.png" (by decide)

/-- C7: when `read_file_csv` raises for some systems, those systems are
skipped — they contribute no plot files, no statistics keys and no PDF
page — while every system that succeeds contributes its two statistics
entries, its plots and its report page, and the PDF is still produced. -/
theorem C7_exception_swallowed
    (inputs : List (String × Option (List (RinexRow × NavRow))))
    (hnd : (inputs.map (fun p => p.1)).Nodup) :
    (process inputs).statKeys =
      (succeeded inputs).flatMap (fun s => [s ++ "_lat", s ++ "_lon"]) ∧
    (process inputs).plotFiles =
      (succeeded inputs).flatMap (fun s => [s ++ ".png", "gyros.png"]) ∧
    (process inputs).pdfPages = succeeded inputs ∧
    (process inputs).pdfProduced = true ∧
    (∀ p ∈ inputs, p.2 = none →
      (p.1 ++ "_lat") ∉ (process inputs).statKeys ∧
      (p.1 ++ "_lon") ∉ (process inputs).statKeys ∧
      p.1 ∉ (process inputs).pdfPages) := by
  have hpages : (process inputs).pdfPages = succeeded inputs := by
    show pdf_pages (inputs.map (fun p => p.1)) (processLoop inputs).2.2 =
      succeeded inputs
    rw [processLoop_sskeys]
    exact pdf_pages_succeeded inputs hnd
  refine ⟨processLoop_statKeys inputs, processLoop_plots inputs, hpages, rfl, ?_⟩
  intro p hp hnone
  have hfail : p.1 ∉ succeeded inputs := by
    intro hmem
    simp only [succeeded, List.mem_map, List.mem_filter] at hmem
    rcases hmem with ⟨q, ⟨hq, hqs⟩, hq1⟩
    have hqp : q = p := List.inj_on_of_nodup_map hnd hq hp hq1
    rw [hqp, hnone] at hqs
    cases hqs
  have hstat := processLoop_statKeys inputs
  refine ⟨?_, ?_, ?_⟩
  · intro hmem
    rw [show (process inputs).statKeys = (processLoop inputs).1 from rfl,
      hstat] at hmem
    rcases List.mem_flatMap.mp hmem with ⟨s, hsucc, hx⟩
    simp only [List.mem_cons, List.not_mem_nil, or_false] at hx
    rcases hx with hx | hx
    · rcases string_append_inj hx (by decide) with ⟨rfl, -⟩
      exact hfail hsucc
    · rcases string_append_inj hx (by decide) with ⟨-, habs⟩
      exact absurd habs (by decide)
  · intro hmem
    rw [show (process inputs).statKeys = (processLoop inputs).1 from rfl,
      hstat] at hmem
    rcases List.mem_flatMap.mp hmem with ⟨s, hsucc, hx⟩
    simp only [List.mem_cons, List.not_mem_nil, or_false] at hx
    rcases hx with hx | hx
    · rcases string_append_inj hx (by decide) with ⟨-, habs⟩
      exact absurd habs (by decide)
    · rcases string_append_inj hx (by decide) with ⟨rfl, -⟩
      exact hfail hsucc
  · rw [hpages]
    exact hfail

/-- Witness instantiating `C7_exception_swallowed` on a run where system
`A` succeeds and system `B` raises. -/
theorem C7_exception_swallowed_witness :
    (process [("A", some ([] : List (RinexRow × NavRow))), ("B", none)]).statKeys =
      (succeeded [("A", some []), ("B", none)]).flatMap
        (fun s => [s ++ "_lat", s ++ "_lon"]) ∧
    (process [("A", some []), ("B", none)]).plotFiles =
      (succeeded [("A", some []), ("B", none)]).flatMap
        (fun s => [s ++ ".png", "gyros.png"]) ∧
    (process [("A", some []), ("B", none)]).pdfPages =
      succeeded [("A", some []), ("B", none)] ∧
    (process [("A", some []), ("B", none)]).pdfProduced = true ∧
    (∀ p ∈ [("A", some ([] : List (RinexRow × NavRow))), ("B", none)],
      p.2 = none →
      (p.1 ++ "_lat") ∉ (process [("A", some []), ("B", none)]).statKeys ∧
      (p.1 ++ "_lon") ∉ (process [("A", some []), ("B", none)]).statKeys ∧
      p.1 ∉ (process [("A", some []), ("B", none)]).pdfPages) :=
  C7_exception_swallowed [("A", some []), ("B", none)] (by decide)

/-- C8: the statistics table rendered in the PDF for a system consists of
exactly five rows — max, min, mean, sample standard deviation and count of
the difference series — and nothing else; the single count shown is the
count of both series, the two series having equal length. -/
theorem C8_pdf_statistics (lat lon : List ℚ) (hlen : lat.length = lon.length) :
    pdf_stat_rows (stats lat) (stats lon) =
      [.duo "Max" ((seriesMax lat : ℚ) : ℝ) ((seriesMax lon : ℚ) : ℝ),
       .duo "Min" ((seriesMin lat : ℚ) : ℝ) ((seriesMin lon : ℚ) : ℝ),
       .duo "Mean" ((seriesMean lat : ℚ) : ℝ) ((seriesMean lon : ℚ) : ℝ),
       .duo "Std Dev" (Real.sqrt (seriesVar lat)) (Real.sqrt (seriesVar lon)),
       .single "# of obs" lon.length] := by
  unfold pdf_stat_rows stats describe
  rw [hlen]

/-- Witness instantiating `C8_pdf_statistics` on two concrete two-element
series. -/
theorem C8_pdf_statistics_witness :
    pdf_stat_rows (stats [1, 2]) (stats [3, 4]) =
      [.duo "Max" ((seriesMax [1, 2] : ℚ) : ℝ) ((seriesMax [3, 4] : ℚ) : ℝ),
       .duo "Min" ((seriesMin [1, 2] : ℚ) : ℝ) ((seriesMin [3, 4] : ℚ) : ℝ),
       .duo "Mean" ((seriesMean [1, 2] : ℚ) : ℝ) ((seriesMean [3, 4] : ℚ) : ℝ),
       .duo "Std Dev" (Real.sqrt (seriesVar [1, 2])) (Real.sqrt (seriesVar [3, 4])),
       .single "# of obs" ([3, 4] : List ℚ).length] :=
  C8_pdf_statistics [1, 2] [3, 4] (by decide)

/-- Witness instantiating `C2_amended` at a concrete navigation row with a
negative time value and a concrete RINEX row at noon. -/
theorem C2_amended_witness :
    (day_seconds_n ⟨-100, 0, 0⟩ = (-100 : ℤ) % 86400 ∧
      0 ≤ day_seconds_n ⟨-100, 0, 0⟩ ∧ day_seconds_n ⟨-100, 0, 0⟩ < 86400) ∧
    (day_seconds_r ⟨2023, 1, 12, 0, 0⟩ =
        pyTrunc (pyRound1 ((12 : ℚ) * 3600)) ∧
      0 ≤ day_seconds_r ⟨2023, 1, 12, 0, 0⟩ ∧
      day_seconds_r ⟨2023, 1, 12, 0, 0⟩ < 86400) :=
  ⟨C2_amended.1 ⟨-100, 0, 0⟩,
    C2_amended.2 ⟨2023, 1, 12, 0, 0⟩ (by norm_num) (by norm_num)⟩

end Rinex
